import Mathlib

/-!
Verification development for the veil policy-resolution core.

The definitions below are a shallow embedding of the TypeScript source:
`src/matching.ts` (pattern matcher, rule evaluator, value mask),
`src/normalize.ts` (command normalizer and its companions),
`src/file-engine.ts`, `src/env-engine.ts`, `src/cli-engine.ts`
(kind-specific policy engines) and the modal-rule resolution of
`src/rules/registry.ts` / `src/rules/modal.ts` (wrangler rule).

JavaScript strings are modelled by `String` (all inputs of interest are
ASCII so code points coincide with UTF-16 units); JS regular expressions
are modelled by a small regex AST `RE` together with a backtracking
matcher `reRuns` that enumerates parses in the priority order a JS engine
uses (leftmost alternative first, greedy quantifiers longest-first, lazy
quantifiers shortest-first), so that `test`, `match[1]` and
`replace(re, "")` are the head of that enumeration.
-/

namespace Veil

/-- Character classes appearing in the source's regular expressions.
`space` is the JS `\s` class (restricted to the whitespace code points
that can occur in this development), `word` is `\w`, `dot` is the JS `.`
(anything but a line terminator), `quote` is `["']` and `wordDashDot` is
`[\w\-.]`. -/
inductive CharClass where
  | lit (c : Char)
  | space
  | word
  | dot
  | quote
  | wordDashDot
deriving DecidableEq, Repr

/-- Decide whether a character belongs to a class. -/
def CharClass.test : CharClass → Char → Bool
  | .lit c, d => c == d
  | .space, d =>
      d == ' ' || d == '\t' || d == '\n' || d == '\r' ||
      d == '\x0b' || d == '\x0c' || d == Char.ofNat 0xa0 || d == Char.ofNat 0xfeff
  | .word, d =>
      ('a' ≤ d && d ≤ 'z') || ('A' ≤ d && d ≤ 'Z') || ('0' ≤ d && d ≤ '9') || d == '_'
  | .dot, d =>
      !(d == '\n' || d == '\r' || d == Char.ofNat 0x2028 || d == Char.ofNat 0x2029)
  | .quote, d => d == '"' || d == '\''
  | .wordDashDot, d =>
      ('a' ≤ d && d ≤ 'z') || ('A' ≤ d && d ≤ 'Z') || ('0' ≤ d && d ≤ '9') ||
      d == '_' || d == '-' || d == '.'

/-- Regex AST.  `starG` is a greedy `*`, `starL` a lazy `*?`, `group` the
single capturing group a pattern of this code base contains, `eos` the `$`
anchor.  A leading `^` is not an AST node: anchoring at the start is a flag
of `JSRegex` below. -/
inductive RE where
  | eps
  | cls (c : CharClass)
  | cat (a b : RE)
  | alt (a b : RE)
  | starG (a : RE)
  | starL (a : RE)
  | group (a : RE)
  | eos
deriving DecidableEq, Repr

/-- Structural size of a regex, used to compute a sufficient recursion
fuel. -/
def RE.size : RE → Nat
  | .eps => 1
  | .eos => 1
  | .cls _ => 1
  | .cat a b => a.size + b.size + 1
  | .alt a b => a.size + b.size + 1
  | .starG a => a.size + 1
  | .starL a => a.size + 1
  | .group a => a.size + 1

/-- All ways the expression can consume a prefix of the input, as pairs of
(capture of the group, remaining input), listed in JS backtracking priority
order.  `fuel` strictly decreases on every recursive call so the function
reduces by structural recursion; callers pass `reFuel`, which dominates the
recursion depth because every star repetition consumes at least one
character (repetitions that consume nothing are filtered out, as a JS
engine also refuses zero-width star steps). -/
def reRuns : Nat → RE → List Char → List (Option (List Char) × List Char)
  | 0, _, _ => []
  | _ + 1, .eps, s => [(none, s)]
  | _ + 1, .eos, s => if s.isEmpty then [(none, s)] else []
  | _ + 1, .cls c, s =>
      match s with
      | [] => []
      | d :: rest => if c.test d then [(none, rest)] else []
  | fuel + 1, .cat a b, s =>
      (reRuns fuel a s).flatMap fun g1 =>
        (reRuns fuel b g1.2).map fun g2 => (g2.1 <|> g1.1, g2.2)
  | fuel + 1, .alt a b, s => reRuns fuel a s ++ reRuns fuel b s
  | fuel + 1, .group a, s =>
      (reRuns fuel a s).map fun g => (some (s.take (s.length - g.2.length)), g.2)
  | fuel + 1, .starG a, s =>
      (((reRuns fuel a s).filter fun g => decide (g.2.length < s.length)).flatMap
        fun g1 => (reRuns fuel (.starG a) g1.2).map fun g2 => (g2.1 <|> g1.1, g2.2))
      ++ [(none, s)]
  | fuel + 1, .starL a, s =>
      (none, s) ::
      ((reRuns fuel a s).filter fun g => decide (g.2.length < s.length)).flatMap
        fun g1 => (reRuns fuel (.starL a) g1.2).map fun g2 => (g2.1 <|> g1.1, g2.2)

/-- Fuel that dominates the recursion depth of `reRuns` on this input. -/
def reFuel (re : RE) (s : List Char) : Nat :=
  (re.size + 1) * (s.length + 2)

/-- A JS regular expression: the body after an optional leading `^`.
`anchored = true` means the source pattern began with `^` (it can only
match at the start of the string); otherwise `test`/`match`/`replace`
search left to right for the first position where the body matches. -/
structure JSRegex where
  re : RE
  anchored : Bool
deriving DecidableEq, Repr

/-- First match of the body when searching left to right from the start:
(text before the match, capture of group 1, text after the match). -/
def jsFirstAux (re : RE) :
    List Char → List Char → Option (List Char × Option (List Char) × List Char)
  | pre, [] =>
    match (reRuns (reFuel re []) re []).head? with
    | some g => some (pre.reverse, g.1, g.2)
    | none => none
  | pre, c :: t =>
    match (reRuns (reFuel re (c :: t)) re (c :: t)).head? with
    | some g => some (pre.reverse, g.1, g.2)
    | none => jsFirstAux re (c :: pre) t

/-- First match of a JS regex against a string (start-anchored patterns
only try position zero). -/
def jsFirst (p : JSRegex) (s : List Char) :
    Option (List Char × Option (List Char) × List Char) :=
  if p.anchored then
    match (reRuns (reFuel p.re s) p.re s).head? with
    | some g => some ([], g.1, g.2)
    | none => none
  else jsFirstAux p.re [] s

/-- JS `regex.test(s)`. -/
def jsTest (p : JSRegex) (s : String) : Bool :=
  (jsFirst p s.toList).isSome

/-- JS `s.match(regex)?.[1]`: capture of group 1 of the first match, if the
string matches and the group participated. -/
def jsMatch1 (p : JSRegex) (s : String) : Option String :=
  (jsFirst p s.toList).bind fun g => g.2.1.map List.asString

/-- JS `s.replace(regex, "")` for a non-global regex: remove the first
match, keep everything else. -/
def jsReplaceFirst (p : JSRegex) (s : String) : String :=
  match jsFirst p s.toList with
  | some g => List.asString (g.1 ++ g.2.2)
  | none => s

/-- JS `String.prototype.trim`. -/
def jsTrim (s : String) : String :=
  List.asString ((s.toList.dropWhile (CharClass.space.test ·)).reverse.dropWhile
    (CharClass.space.test ·)).reverse

/-- Literal character sequence as a regex. -/
def reLit (s : String) : RE :=
  s.toList.foldr (fun c acc => RE.cat (.cls (.lit c)) acc) .eps

/-- Greedy `+`: one occurrence followed by a greedy star. -/
def rePlusG (a : RE) : RE := .cat a (.starG a)

/-- Lazy `+?`: one occurrence followed by a lazy star. -/
def rePlusL (a : RE) : RE := .cat a (.starL a)

/-- The `\s+` idiom. -/
def reSpaces : RE := rePlusG (.cls .space)

/-- Right-nested concatenation of a pattern list. -/
def reCats (l : List RE) : RE := l.foldr .cat .eps

/-- The shell-name alternation `(?:bash|sh|zsh|dash|ksh|csh|tcsh|fish)`,
alternatives in source order. -/
def reShellNames : RE :=
  .alt (reLit "bash") (.alt (reLit "sh") (.alt (reLit "zsh") (.alt (reLit "dash")
    (.alt (reLit "ksh") (.alt (reLit "csh") (.alt (reLit "tcsh") (reLit "fish")))))))

/-- First shell wrapper pattern of `normalize.ts`:
`^(?:bash|sh|zsh|dash|ksh|csh|tcsh|fish)\s+(?:-\w+\s+)*-c\s+["'](.+?)["']\s*$`. -/
def SHELL_WRAPPER_PATTERN_QUOTED : JSRegex :=
  ⟨reCats [reShellNames, reSpaces,
    .starG (reCats [.cls (.lit '-'), rePlusG (.cls .word), reSpaces]),
    reLit "-c", reSpaces, .cls .quote, .group (rePlusL (.cls .dot)), .cls .quote,
    .starG (.cls .space), .eos], true⟩

/-- Second shell wrapper pattern of `normalize.ts` (unquoted inner command):
`^(?:bash|sh|zsh|dash|ksh|csh|tcsh|fish)\s+(?:-\w+\s+)*-c\s+(.+)$`. -/
def SHELL_WRAPPER_PATTERN_UNQUOTED : JSRegex :=
  ⟨reCats [reShellNames, reSpaces,
    .starG (reCats [.cls (.lit '-'), rePlusG (.cls .word), reSpaces]),
    reLit "-c", reSpaces, .group (rePlusG (.cls .dot)), .eos], true⟩

/-- `SHELL_WRAPPER_PATTERNS`, in source order. -/
def SHELL_WRAPPER_PATTERNS : List JSRegex :=
  [SHELL_WRAPPER_PATTERN_QUOTED, SHELL_WRAPPER_PATTERN_UNQUOTED]

/-- First eval pattern: `^eval\s+["'](.+?)["']\s*$`. -/
def EVAL_PATTERN_QUOTED : JSRegex :=
  ⟨reCats [reLit "eval", reSpaces, .cls .quote, .group (rePlusL (.cls .dot)),
    .cls .quote, .starG (.cls .space), .eos], true⟩

/-- Second eval pattern: `^eval\s+(.+)$`. -/
def EVAL_PATTERN_UNQUOTED : JSRegex :=
  ⟨reCats [reLit "eval", reSpaces, .group (rePlusG (.cls .dot)), .eos], true⟩

/-- `EVAL_PATTERNS`, in source order. -/
def EVAL_PATTERNS : List JSRegex := [EVAL_PATTERN_QUOTED, EVAL_PATTERN_UNQUOTED]

/-- `ABSOLUTE_PATH_PATTERN`: `^(\/[\w\-.]+)+\//`. -/
def ABSOLUTE_PATH_PATTERN : JSRegex :=
  ⟨.cat (rePlusG (.group (.cat (.cls (.lit '/')) (rePlusG (.cls .wordDashDot)))))
    (.cls (.lit '/')), true⟩

/-- `PACKAGE_RUNNER_PATTERN`: `^(?:npx|pnpx|yarn\s+dlx|bunx)\s+`. -/
def PACKAGE_RUNNER_PATTERN : JSRegex :=
  ⟨.cat (.alt (reLit "npx") (.alt (reLit "pnpx")
      (.alt (reCats [reLit "yarn", reSpaces, reLit "dlx"]) (reLit "bunx"))))
    reSpaces, true⟩

/-- The `/^rm -rf/` pattern of the end-to-end scenarios. -/
def RM_RF_PATTERN : JSRegex := ⟨reLit "rm -rf", true⟩

/-- The wrangler invocation pattern `/^wrangler\s/` of the modal rule. -/
def WRANGLER_CMD_PATTERN : JSRegex := ⟨.cat (reLit "wrangler") (.cls .space), true⟩

/-- The wrangler config-file pattern `/wrangler\.toml$/` of the modal rule. -/
def WRANGLER_TOML_PATTERN : JSRegex := ⟨.cat (reLit "wrangler.toml") .eos, false⟩

/-- Rule actions (`RuleAction` of `types.ts`). -/
inductive RuleAction where
  | allow
  | deny
  | mask
  | rewrite
deriving DecidableEq, Repr

/-- A rule pattern is a plain string or a regular expression
(`match: string | RegExp`). -/
inductive RulePattern where
  | str (s : String)
  | regex (r : JSRegex)
deriving DecidableEq, Repr

/-- A rule (`BaseRule` of `types.ts`, with the `safeAlternatives` field that
only CLI rules carry; `none` models an absent optional field). -/
structure Rule where
  «match» : RulePattern
  action : RuleAction
  replacement : Option String
  reason : Option String
  safeAlternatives : Option (List String)
deriving DecidableEq, Repr

/-- JS `hay.includes(needle)`: substring containment. -/
def jsIncludes (needle : List Char) : List Char → Bool
  | [] => needle.isEmpty
  | c :: t => needle.isPrefixOf (c :: t) || jsIncludes needle t

/-- `matchesPattern` of `matching.ts`: a string pattern matches by equality
or substring containment (`target.includes(pattern)`), a regex pattern by
`pattern.test(target)`. -/
def matchesPattern (target : String) (pattern : RulePattern) : Bool :=
  match pattern with
  | .str s => target == s || jsIncludes s.toList target.toList
  | .regex r => jsTest r target

/-- Index-tracking loop of `findMatchingRule`. -/
def findMatchingRuleAux (target : String) : List Rule → Nat → Option (Rule × Nat)
  | [], _ => none
  | rule :: rest, i =>
    if matchesPattern target rule.«match» then some (rule, i)
    else findMatchingRuleAux target rest (i + 1)

/-- `findMatchingRule` of `matching.ts`: the first rule whose pattern
matches the target, with its index. -/
def findMatchingRule (target : String) (rules : List Rule) : Option (Rule × Nat) :=
  findMatchingRuleAux target rules 0

/-- `getRuleTypeName` of `matching.ts`: structural sniffing — a rule with a
`safeAlternatives` property is called `cliRules`, anything else `rules`. -/
def getRuleTypeName (rule : Rule) : String :=
  if rule.safeAlternatives.isSome then "cliRules" else "rules"

/-- Result of `evaluateRules`. -/
structure EvalResult where
  action : RuleAction
  rule : Rule
  policyRef : String
deriving DecidableEq, Repr

/-- `evaluateRules` of `matching.ts`: first matching rule, its action and a
policy reference `<ruleType>[<index>]`; `none` when no rule matches. -/
def evaluateRules (target : String) (rules : List Rule) : Option EvalResult :=
  match findMatchingRule target rules with
  | none => none
  | some (rule, index) =>
    some ⟨rule.action, rule, getRuleTypeName rule ++ "[" ++ toString index ++ "]"⟩

/-- `applyMask` of `matching.ts`: a configured replacement is used
verbatim; otherwise values of length at most 4 become `"****"`, longer
values keep their first and last character around at most 8 asterisks. -/
def applyMask (value : String) (replacement : Option String) : String :=
  match replacement with
  | some r => r
  | none =>
    if value.length ≤ 4 then "****"
    else
      List.asString (value.toList.headD ' ' ::
        (List.replicate (min (value.length - 2) 8) '*' ++ [value.toList.getLastD ' ']))

/-- Options of `normalizeCommand` (`NormalizeOptions` of `normalize.ts`);
the source's optional fields are merged with `DEFAULT_OPTIONS`, so a fully
resolved options object is total. -/
structure NormalizeOptions where
  stripPaths : Bool
  unwrapShells : Bool
  unwrapEval : Bool
  stripPackageRunners : Bool
deriving DecidableEq, Repr

/-- `DEFAULT_OPTIONS` of `normalize.ts`: everything enabled. -/
def DEFAULT_OPTIONS : NormalizeOptions := ⟨true, true, true, true⟩

/-- The `addVariant` helper of `normalizeCommand`: trim, then append if
non-empty and not already present (the `seen` set always holds exactly the
variants pushed so far, so membership in the list is the same test). -/
def addVariant (variants : List String) (cmd : String) : List String :=
  let trimmed := jsTrim cmd
  if trimmed != "" && !(variants.contains trimmed) then variants ++ [trimmed]
  else variants

/-- The `for (const pattern of …)` loops over `SHELL_WRAPPER_PATTERNS` and
`EVAL_PATTERNS`: first pattern whose `match[1]` is truthy (a present,
non-empty capture). -/
def firstGroupMatch (patterns : List JSRegex) (s : String) : Option String :=
  match patterns with
  | [] => none
  | p :: rest =>
    match jsMatch1 p s with
    | some g => if g == "" then firstGroupMatch rest s else some g
    | none => firstGroupMatch rest s

/-- The bounded shell-unwrapping loop of `normalizeCommand` (`while
(unwrapped && iterations < maxIterations)` with `maxIterations = 5`): each
successful unwrap trims the capture, records it as a variant and continues
from it. -/
def unwrapShellsLoop : Nat → String → List String → String × List String
  | 0, current, vs => (current, vs)
  | n + 1, current, vs =>
    match firstGroupMatch SHELL_WRAPPER_PATTERNS current with
    | some inner =>
      let next := jsTrim inner
      unwrapShellsLoop n next (addVariant vs next)
    | none => (current, vs)

/-- `normalizeCommand` of `normalize.ts`: the trimmed original first, then
progressively unwrapped variants (shell wrappers up to 5 times, one `eval`
unwrap, absolute-path strip, package-runner strip), de-duplicated. -/
def normalizeCommand (command : String) (opts : NormalizeOptions) : List String :=
  let vs0 := addVariant [] command
  let current0 := jsTrim command
  let su := if opts.unwrapShells then unwrapShellsLoop 5 current0 vs0 else (current0, vs0)
  let ev :=
    if opts.unwrapEval then
      match firstGroupMatch EVAL_PATTERNS su.1 with
      | some inner =>
        let next := jsTrim inner
        (next, addVariant su.2 next)
      | none => su
    else su
  let ap :=
    if opts.stripPaths && jsTest ABSOLUTE_PATH_PATTERN ev.1 then
      let stripped := jsReplaceFirst ABSOLUTE_PATH_PATTERN ev.1
      (stripped, addVariant ev.2 stripped)
    else ev
  if opts.stripPackageRunners && jsTest PACKAGE_RUNNER_PATTERN ap.1 then
    addVariant ap.2 (jsReplaceFirst PACKAGE_RUNNER_PATTERN ap.1)
  else ap.2

/-- Early-return loop `for (const pattern of ps) if (pattern.test(s)) return true`. -/
def anyPatternTest (patterns : List JSRegex) (s : String) : Bool :=
  match patterns with
  | [] => false
  | p :: rest => if jsTest p s then true else anyPatternTest rest s

/-- `isWrappedCommand` of `normalize.ts`: shell wrappers, `eval` wrappers
and absolute paths are checked against the trimmed raw command. -/
def isWrappedCommand (command : String) : Bool :=
  let trimmed := jsTrim command
  if anyPatternTest SHELL_WRAPPER_PATTERNS trimmed then true
  else if anyPatternTest EVAL_PATTERNS trimmed then true
  else if jsTest ABSOLUTE_PATH_PATTERN trimmed then true
  else false

/-- `describeNormalization` of `normalize.ts`: which transformations
account for the difference between the original and normalized command;
`none` when they coincide after trimming. -/
def describeNormalization (original normalized : String) : Option String :=
  if jsTrim original == jsTrim normalized then none
  else
    let d1 := if anyPatternTest SHELL_WRAPPER_PATTERNS (jsTrim original) then
                ["subshell wrapper stripped"] else []
    let d2 := if anyPatternTest EVAL_PATTERNS (jsTrim original) then
                ["eval wrapper stripped"] else []
    let d3 := if jsTest ABSOLUTE_PATH_PATTERN (jsTrim original) &&
                 !(jsTest ABSOLUTE_PATH_PATTERN (jsTrim normalized)) then
                ["absolute path stripped"] else []
    let d4 := if jsTest PACKAGE_RUNNER_PATTERN (jsTrim original) &&
                 !(jsTest PACKAGE_RUNNER_PATTERN (jsTrim normalized)) then
                ["package runner stripped"] else []
    let descriptions := d1 ++ d2 ++ d3 ++ d4
    if descriptions.isEmpty then some "command normalized"
    else some (String.intercalate ", " descriptions)

/-- JS truthiness of an optional string (`if (rule.reason) …`): present and
non-empty. -/
def truthyString (s : Option String) : Option String :=
  match s with
  | some r => if r == "" then none else some r
  | none => none

/-- Structured details of a blocked result (`BlockDetails` of `types.ts`). -/
structure BlockDetails where
  target : String
  policy : String
  action : RuleAction
  replacement : Option String
deriving DecidableEq, Repr

/-- Result of the CLI engine's `checkCommand` (`CliResult` of `types.ts`):
either ok with the (possibly rewritten) command and optional advisory
context, or blocked with a reason and optional safe alternatives. -/
inductive CliResult where
  | okCmd (command : String) (context : Option String)
  | blockedCmd (reason : String) (command : String) (safeAlternatives : Option (List String))
deriving DecidableEq, Repr

/-- Whether a CLI result is a blocked result. -/
def CliResult.isBlocked : CliResult → Bool
  | .okCmd .. => false
  | .blockedCmd .. => true

/-- Whether a CLI result is a success (`result.ok`). -/
def CliResult.isOk : CliResult → Bool
  | .okCmd .. => true
  | .blockedCmd .. => false

/-- The reason of a blocked CLI result. -/
def CliResult.reasonOf : CliResult → Option String
  | .okCmd .. => none
  | .blockedCmd reason _ _ => some reason

/-- The safe alternatives of a blocked CLI result. -/
def CliResult.safeAltOf : CliResult → Option (List String)
  | .okCmd .. => none
  | .blockedCmd _ _ sa => sa

/-- The per-variant loop of `checkCommand` in `cli-engine.ts`: the first
variant that matches a rule determines the outcome; variants caught via
normalization annotate deny/mask reasons with the normalization note. -/
def checkCommandLoop (command : String) (rules : List Rule) : List String → Option CliResult
  | [] => none
  | variant :: rest =>
    match evaluateRules variant rules with
    | some result =>
      let wasNormalized := variant != jsTrim command
      let normalizationNote :=
        if wasNormalized then describeNormalization command variant else none
      match result.action with
      | .allow => some (.okCmd command (truthyString result.rule.reason))
      | .deny =>
        let reason0 := result.rule.reason.getD "command_denied_by_policy"
        let reason :=
          match normalizationNote with
          | some note => reason0 ++ "\n\n⚠️ Bypass attempt detected: " ++ note
          | none => reason0
        some (.blockedCmd reason command result.rule.safeAlternatives)
      | .rewrite => some (.okCmd (result.rule.replacement.getD command) none)
      | .mask =>
        let reason0 := result.rule.reason.getD "command_denied_by_policy"
        let reason :=
          match normalizationNote with
          | some note => reason0 ++ "\n\n⚠️ Bypass attempt detected: " ++ note
          | none => reason0
        some (.blockedCmd reason command result.rule.safeAlternatives)
    | none => checkCommandLoop command rules rest

/-- `checkCommand` of `cli-engine.ts`: check every normalization variant in
order (just the trimmed command when bypass protection is disabled); no
match on any variant is allow-by-default with the original command. -/
def checkCommand (rules : List Rule) (bypassOptions : Option NormalizeOptions)
    (command : String) : CliResult :=
  let variants :=
    match bypassOptions with
    | some opts => normalizeCommand command opts
    | none => [jsTrim command]
  match checkCommandLoop command rules variants with
  | some result => result
  | none => .okCmd command none

/-- `isAllowed` of `cli-engine.ts`. -/
def isAllowed (rules : List Rule) (bypassOptions : Option NormalizeOptions)
    (command : String) : Bool :=
  (checkCommand rules bypassOptions command).isOk

/-- `transform` of `cli-engine.ts`. -/
def transform (rules : List Rule) (bypassOptions : Option NormalizeOptions)
    (command : String) : Option String :=
  match checkCommand rules bypassOptions command with
  | .okCmd cmd _ => some cmd
  | .blockedCmd .. => none

/-- Injection hooks of a veil configuration (`VeilInjectors` of
`types.ts`); `none` inside means the injector declined (returned `null`). -/
structure VeilInjectors where
  files : Option (String → Option String)
  directories : Option (String → Option (List String))
  env : Option (String → Option String)

/-- Result of the file engine's `checkFile` (`FileResult | VeilSuccess<true>`). -/
inductive FileResult where
  | okTrue
  | okContent (value : String)
  | blockedFile (reason : String) (details : BlockDetails)
deriving DecidableEq, Repr

/-- Whether a file result is a success (`result.ok`). -/
def FileResult.isOk : FileResult → Bool
  | .okTrue => true
  | .okContent _ => true
  | .blockedFile .. => false

/-- The policy reference in the details of a blocked file result. -/
def FileResult.blockedPolicy : FileResult → Option String
  | .blockedFile _ details => some details.policy
  | _ => none

/-- `createBlockedResult` of `file-engine.ts`. -/
def createBlockedResult (target : String) (reason : String) (policy : String)
    (action : RuleAction) (replacement : Option String) : FileResult :=
  .blockedFile reason ⟨target, policy, action, replacement⟩

/-- `checkFile` of `file-engine.ts`: injectors short-circuit; otherwise the
first matching rule decides (`deny`/`mask` block, `rewrite` substitutes its
replacement or fails closed, no match allows). -/
def checkFile (injectors : Option VeilInjectors) (rules : List Rule)
    (path : String) : FileResult :=
  match (injectors.bind VeilInjectors.files).bind (fun f => f path) with
  | some injected => .okContent injected
  | none =>
    match evaluateRules path rules with
    | none => .okTrue
    | some result =>
      match result.action with
      | .allow => .okTrue
      | .deny =>
        createBlockedResult path (result.rule.reason.getD "file_hidden_by_policy")
          result.policyRef .deny none
      | .mask =>
        createBlockedResult path "file_hidden_by_policy" result.policyRef .mask
          (some (result.rule.replacement.getD "hidden_by_policy"))
      | .rewrite =>
        match result.rule.replacement with
        | some replacement => .okContent replacement
        | none => createBlockedResult path "file_hidden_by_policy" result.policyRef .rewrite none

/-- Result of the file engine's `checkDirectory`. -/
inductive DirectoryResult where
  | okTrue
  | okListing (value : List String)
  | blockedDir (reason : String) (details : BlockDetails)
deriving DecidableEq, Repr

/-- `checkDirectory` of `file-engine.ts`: like `checkFile` except the
default reason and that `rewrite` yields an empty listing. -/
def checkDirectory (injectors : Option VeilInjectors) (rules : List Rule)
    (path : String) : DirectoryResult :=
  match (injectors.bind VeilInjectors.directories).bind (fun f => f path) with
  | some injected => .okListing injected
  | none =>
    match evaluateRules path rules with
    | none => .okTrue
    | some result =>
      match result.action with
      | .allow => .okTrue
      | .deny =>
        .blockedDir (result.rule.reason.getD "directory_hidden_by_policy")
          ⟨path, result.policyRef, .deny, none⟩
      | .mask =>
        .blockedDir "directory_hidden_by_policy"
          ⟨path, result.policyRef, .mask, some (result.rule.replacement.getD "hidden_by_policy")⟩
      | .rewrite => .okListing []

/-- `filterPaths` of `file-engine.ts`: keep the paths with no matching rule
or whose first matching rule is an `allow`. -/
def filterPaths (rules : List Rule) (paths : List String) : List String :=
  paths.filter fun path =>
    match evaluateRules path rules with
    | none => true
    | some result => result.action == .allow

/-- `isVisible` of `file-engine.ts`. -/
def isVisible (rules : List Rule) (path : String) : Bool :=
  match evaluateRules path rules with
  | none => true
  | some result => result.action == .allow

/-- Result of the env engine's `getEnv` (`EnvResult` of `types.ts`): ok
with an optional value (`none` models `undefined`) and optional advisory
context, or blocked. -/
inductive EnvResult where
  | okVal (value : Option String) (context : Option String)
  | blockedEnv (reason : String) (details : BlockDetails)
deriving DecidableEq, Repr

/-- Whether an env result is a success (`result.ok`). -/
def EnvResult.isOk : EnvResult → Bool
  | .okVal .. => true
  | .blockedEnv .. => false

/-- `getEnv` of `env-engine.ts`: injectors short-circuit; no matching rule
passes the real value through; `allow` passes it with optional advisory
context; `deny` blocks; `mask` passes an unset variable through unchanged
and otherwise masks the real value; `rewrite` returns the replacement or
the empty string. `env` models `process.env` lookup. -/
def getEnv (env : String → Option String) (injectors : Option VeilInjectors)
    (rules : List Rule) (key : String) : EnvResult :=
  match (injectors.bind VeilInjectors.env).bind (fun f => f key) with
  | some injected => .okVal (some injected) none
  | none =>
    match evaluateRules key rules with
    | none => .okVal (env key) none
    | some result =>
      let realValue := env key
      match result.action with
      | .allow => .okVal realValue (truthyString result.rule.reason)
      | .deny =>
        .blockedEnv (result.rule.reason.getD "env_denied_by_policy")
          ⟨key, result.policyRef, .deny, none⟩
      | .mask =>
        match realValue with
        | none => .okVal none none
        | some v => .okVal (some (applyMask v result.rule.replacement)) none
      | .rewrite => .okVal (some (result.rule.replacement.getD "")) none

/-- Enforcement modes of modal rules (`RuleMode` of `rules/types.ts`). -/
inductive RuleMode where
  | strict
  | passive
deriving DecidableEq, Repr

/-- Per-invocation overrides of a modal rule (`ModalRuleOptions`):
`message` overrides the strict text, `context` the passive text. -/
structure ModalRuleOptions where
  message : Option String
  context : Option String
deriving DecidableEq, Repr

/-- Configuration entry for a modal rule (`ModalRuleConfig`). -/
structure ModalRuleConfig where
  mode : Option RuleMode
  message : Option String
  context : Option String
deriving DecidableEq, Repr

/-- Rules generated by a modal rule's `createRules`. -/
structure GeneratedRules where
  fileRules : Option (List Rule)
  envRules : Option (List Rule)
  cliRules : Option (List Rule)
deriving DecidableEq, Repr

/-- Default context of the wrangler rule in passive mode
(`WRANGLER_DEFAULT_CONTEXT`, a trimmed template literal). -/
def WRANGLER_DEFAULT_CONTEXT : String :=
  jsTrim "\n## Cloudflare Wrangler Context\n\n**Environments:**\n- `development` - Local development with wrangler dev\n- `staging` - Preview deployments (*.workers.dev)\n- `production` - Live production workers\n\n**KV Namespaces:**\n- Always use environment-specific KV bindings\n- Development uses local KV simulation\n- Never hardcode KV namespace IDs\n\n**Best Practices:**\n- Use `wrangler dev` for local testing\n- Use `--env staging` for preview deployments\n- Secrets should be set via `wrangler secret put`\n- Never commit wrangler.toml secrets\n\n**Common Commands:**\n- `wrangler dev` - Start local dev server\n- `wrangler deploy` - Deploy to production\n- `wrangler deploy --env staging` - Deploy to staging\n- `wrangler tail` - Stream live logs\n"

/-- Default message of the wrangler rule in strict mode
(`WRANGLER_STRICT_MESSAGE`, a trimmed template literal). -/
def WRANGLER_STRICT_MESSAGE : String :=
  jsTrim "\n⛔ Wrangler access is blocked by policy.\n\nThis project uses Cloudflare Workers with specific deployment procedures.\nDirect wrangler commands are not permitted in this context.\n\nPlease consult the deployment documentation or contact the infrastructure team.\n"

/-- The wrangler rule's `createRules` (modal rule definition with
`supportsMode = true`, `defaultMode = "passive"`): strict mode denies the
invocation pattern and the config file with the override message or the
built-in strict message; passive mode allows the invocation pattern with
the override context or the built-in context as the rule's reason. -/
def wranglerCreateRules (mode : RuleMode) (options : Option ModalRuleOptions) :
    GeneratedRules :=
  match mode with
  | .strict =>
    let message := (options.bind ModalRuleOptions.message).getD WRANGLER_STRICT_MESSAGE
    { fileRules := some [⟨.regex WRANGLER_TOML_PATTERN, .deny, none, some message, none⟩]
      envRules := none
      cliRules := some [⟨.regex WRANGLER_CMD_PATTERN, .deny, none, some message, none⟩] }
  | .passive =>
    { fileRules := none
      envRules := none
      cliRules := some [⟨.regex WRANGLER_CMD_PATTERN, .allow, none,
        some ((options.bind ModalRuleOptions.context).getD WRANGLER_DEFAULT_CONTEXT), none⟩] }

/-- The wrangler rule's `defaultMode` field. -/
def wranglerDefaultMode : Option RuleMode := some .passive

/-- Mode selection of `buildConfigFromRules` in `rules/registry.ts`:
`modalConfig?.mode ?? rule.defaultMode ?? "passive"`. -/
def resolveMode (modalConfig : Option ModalRuleConfig)
    (defaultMode : Option RuleMode) : RuleMode :=
  ((modalConfig.bind ModalRuleConfig.mode)).getD (defaultMode.getD .passive)

/-- The modal branch of `buildConfigFromRules`: resolve the mode, build the
options object from the configuration's `message`/`context`, and call the
definition's `createRules`. -/
def resolveModalRule (defaultMode : Option RuleMode)
    (createRules : RuleMode → Option ModalRuleOptions → GeneratedRules)
    (modalConfig : Option ModalRuleConfig) : GeneratedRules :=
  let mode := resolveMode modalConfig defaultMode
  let options : ModalRuleOptions :=
    ⟨modalConfig.bind ModalRuleConfig.message, modalConfig.bind ModalRuleConfig.context⟩
  createRules mode (some options)

/-- Scenario rule `{match: "x", action: "rewrite"}` with no replacement. -/
def REWRITE_NO_REPLACEMENT_RULE : Rule := ⟨.str "x", .rewrite, none, none, none⟩

/-- Scenario rule `{match: "x", action: "rewrite", replacement: "y"}`. -/
def REWRITE_WITH_REPLACEMENT_RULE : Rule := ⟨.str "x", .rewrite, some "y", none, none⟩

/-- Scenario rule
`{match: /^rm -rf/, action: "deny", safeAlternatives: ["rm -i"]}`. -/
def RM_RF_DENY_RULE : Rule := ⟨.regex RM_RF_PATTERN, .deny, none, none, some ["rm -i"]⟩

/-- Scenario rule `{match: "node_modules", action: "deny"}`. -/
def FILE_NODE_MODULES_RULE : Rule := ⟨.str "node_modules", .deny, none, none, none⟩

/-- Scenario rule `{match: "K", action: "mask"}` for the env engine. -/
def ENV_MASK_RULE : Rule := ⟨.str "K", .mask, none, none, none⟩

/-- Scenario rule `{match: "a", action: "allow"}`. -/
def ALLOW_A_RULE : Rule := ⟨.str "a", .allow, none, none, none⟩

/-- Scenario rule `{match: "b", action: "deny"}`. -/
def DENY_B_RULE : Rule := ⟨.str "b", .deny, none, none, none⟩

/-- Scenario environment holding only `x = "secret"` (models a
`process.env` in which only `x` is set). -/
def envOnlyX : String → Option String :=
  fun k => if k == "x" then some "secret" else none

/-- The index-tracking scan returns the first match: if rule `i` matches
and no earlier rule does, the scan started at offset `k` returns rule `i`
with index `k + i`. -/
theorem findMatchingRuleAux_first (target : String) (l : List Rule) (k i : Nat)
    (h : i < l.length) (hm : matchesPattern target (l[i]).«match» = true)
    (hj : ∀ (j : Nat) (hj' : j < l.length), j < i →
      matchesPattern target (l[j]).«match» = false) :
    findMatchingRuleAux target l k = some (l[i], k + i) := by
  induction l generalizing k i with
  | nil => simp at h
  | cons r rest ih =>
    cases i with
    | zero =>
      simp only [List.getElem_cons_zero] at hm
      simp [findMatchingRuleAux, hm]
    | succ n =>
      have h0 : matchesPattern target r.«match» = false := by
        have := hj 0 (by simp) (by omega)
        simpa using this
      have harith : k + 1 + n = k + (n + 1) := by omega
      have hrec := ih (k + 1) n (by simpa using h) (by simpa using hm)
        (fun j hj' hlt => by
          have := hj (j + 1) (by simpa using hj') (by omega)
          simpa using this)
      rw [harith] at hrec
      simp [findMatchingRuleAux, h0, hrec]

/-- The index-tracking scan returns nothing when no rule matches. -/
theorem findMatchingRuleAux_none (target : String) (l : List Rule) (k : Nat)
    (hall : ∀ (i : Nat) (h : i < l.length),
      matchesPattern target (l[i]).«match» = false) :
    findMatchingRuleAux target l k = none := by
  induction l generalizing k with
  | nil => rfl
  | cons r rest ih =>
    have h0 : matchesPattern target r.«match» = false := by
      have := hall 0 (by simp)
      simpa using this
    have hrec := ih (k + 1) (fun i hi => by
      have := hall (i + 1) (by simpa using hi)
      simpa using this)
    simp [findMatchingRuleAux, h0, hrec]

/-- The per-variant loop finds nothing when the rule list is empty. -/
theorem checkCommandLoop_nil (command : String) (variants : List String) :
    checkCommandLoop command [] variants = none := by
  induction variants with
  | nil => rfl
  | cons v rest ih => simpa [checkCommandLoop, evaluateRules, findMatchingRule,
      findMatchingRuleAux] using ih

/-- C2: rule evaluation scans the list in index order and returns the
result of the first rule whose pattern matches the target regardless of
later matching rules; with no match (in particular for the empty list) it
returns `none`, and every engine treats that as allow by default. -/
theorem C2_first_match_wins (target : String) (rules : List Rule) :
    (evaluateRules target [] = none)
    ∧ (∀ (i : Nat) (h : i < rules.length),
        matchesPattern target (rules[i]).«match» = true →
        (∀ (j : Nat) (hj : j < rules.length), j < i →
          matchesPattern target (rules[j]).«match» = false) →
        evaluateRules target rules =
          some ⟨(rules[i]).action, rules[i],
            getRuleTypeName (rules[i]) ++ "[" ++ toString i ++ "]"⟩)
    ∧ ((∀ (i : Nat) (h : i < rules.length),
          matchesPattern target (rules[i]).«match» = false) →
        evaluateRules target rules = none)
    ∧ checkFile none [] target = .okTrue
    ∧ checkDirectory none [] target = .okTrue
    ∧ (∀ env : String → Option String, getEnv env none [] target = .okVal (env target) none)
    ∧ checkCommand [] (some DEFAULT_OPTIONS) target = .okCmd target none := by
  refine ⟨rfl, ?_, ?_, rfl, rfl, fun env => rfl, ?_⟩
  · intro i h hm hj
    unfold evaluateRules findMatchingRule
    rw [findMatchingRuleAux_first target rules 0 i h hm hj]
    simp
  · intro hall
    unfold evaluateRules findMatchingRule
    rw [findMatchingRuleAux_none target rules 0 hall]
  · simp [checkCommand, checkCommandLoop_nil]

/-- C2 witness: with rules `[{match: "b", deny}, {match: "a", allow}]` and
target `"a"`, the second rule is the first match and its result is
returned. -/
theorem C2_witness :
    evaluateRules "a" [DENY_B_RULE, ALLOW_A_RULE]
      = some ⟨ALLOW_A_RULE.action, ALLOW_A_RULE,
          getRuleTypeName ALLOW_A_RULE ++ "[" ++ toString 1 ++ "]"⟩ := by
  have h := (C2_first_match_wins "a" [DENY_B_RULE, ALLOW_A_RULE]).2.1 1 (by decide)
    (by decide)
    (fun j hj hlt => by
      have hj0 : j = 0 := by omega
      subst hj0
      simp only [List.getElem_cons_zero]
      decide)
  simpa using h

/-- C1 counterexample: the CLI engine does not fail closed — with rule
`{match: "x", action: "rewrite"}` and no replacement, `checkCommand("x")`
is not blocked, it passes the original command through. -/
theorem C1_counterexample :
    (checkCommand [REWRITE_NO_REPLACEMENT_RULE] (some DEFAULT_OPTIONS) "x").isBlocked = false
    ∧ checkCommand [REWRITE_NO_REPLACEMENT_RULE] (some DEFAULT_OPTIONS) "x"
        = .okCmd "x" none := by
  decide

/-- C1 amended: a matched rewrite rule without a replacement blocks only in
the file engine; the env engine succeeds with the empty string as value and
the CLI engine succeeds with the original command unchanged. -/
theorem C1_amended :
    checkFile none [REWRITE_NO_REPLACEMENT_RULE] "x"
      = .blockedFile "file_hidden_by_policy" ⟨"x", "rules[0]", .rewrite, none⟩
    ∧ getEnv envOnlyX none [REWRITE_NO_REPLACEMENT_RULE] "x" = .okVal (some "") none
    ∧ checkCommand [REWRITE_NO_REPLACEMENT_RULE] (some DEFAULT_OPTIONS) "x"
        = .okCmd "x" none := by
  decide

/-- C3: with `cliRules = [{match: /^rm -rf/, action: "deny",
safeAlternatives: ["rm -i"]}]`, checking `bash -c "rm -rf /"` is blocked;
the reason contains `command_denied_by_policy` and the subshell-stripped
annotation, and the safe alternatives are `["rm -i"]` — the deny found on
the unwrapped variant blocks the raw command. -/
theorem C3_subshell_deny_end_to_end :
    checkCommand [RM_RF_DENY_RULE] (some DEFAULT_OPTIONS) "bash -c \"rm -rf /\""
      = .blockedCmd
          "command_denied_by_policy\n\n⚠️ Bypass attempt detected: subshell wrapper stripped"
          "bash -c \"rm -rf /\"" (some ["rm -i"])
    ∧ jsIncludes ("command_denied_by_policy").toList
        ("command_denied_by_policy\n\n⚠️ Bypass attempt detected: subshell wrapper stripped").toList
        = true
    ∧ jsIncludes ("subshell wrapper stripped").toList
        ("command_denied_by_policy\n\n⚠️ Bypass attempt detected: subshell wrapper stripped").toList
        = true := by
  decide

/-- C4: the value mask uses a configured replacement verbatim; otherwise
values of length at most 4 become exactly `"****"`, and longer values keep
their first and last character around `min(length - 2, 8)` asterisks, so
the masked length never exceeds 10. -/
theorem C4_apply_mask_shape (value r : String) :
    (applyMask value (some r) = r)
    ∧ (value.length ≤ 4 → applyMask value none = "****")
    ∧ (4 < value.length →
        (applyMask value none).length = 2 + min (value.length - 2) 8
        ∧ (applyMask value none).length ≤ 10
        ∧ (applyMask value none).toList.head? = value.toList.head?
        ∧ (applyMask value none).toList.getLast? = value.toList.getLast?
        ∧ ((applyMask value none).toList.drop 1).dropLast
            = List.replicate (min (value.length - 2) 8) '*') := by
  refine ⟨rfl, ?_, ?_⟩
  · intro h
    simp [applyMask, h]
  · intro h
    have hlen : value.toList.length = value.length := rfl
    have hne : value.toList ≠ [] := by
      intro hnil
      rw [hnil] at hlen
      simp at hlen
      omega
    have hgt : ¬ value.length ≤ 4 := by omega
    have hmask : applyMask value none
        = List.asString (value.toList.headD ' ' ::
            (List.replicate (min (value.length - 2) 8) '*' ++ [value.toList.getLastD ' '])) := by
      simp [applyMask, hgt]
    have hlist : (applyMask value none).toList
        = value.toList.headD ' ' ::
            (List.replicate (min (value.length - 2) 8) '*' ++ [value.toList.getLastD ' ']) := by
      rw [hmask]
      exact List.toList_asString _
    have hmin : min (value.length - 2) 8 ≤ 8 := Nat.min_le_right _ _
    have hlen2 : (applyMask value none).length = ((applyMask value none).toList).length := rfl
    refine ⟨?_, ?_, ?_, ?_, ?_⟩
    · rw [hlen2, hlist]
      simp
      omega
    · rw [hlen2, hlist]
      simp
    · rw [hlist]
      cases hv : value.toList with
      | nil => exact absurd hv hne
      | cons c cs => simp
    · rw [hlist]
      have hcat : value.toList.headD ' ' ::
            (List.replicate (min (value.length - 2) 8) '*' ++ [value.toList.getLastD ' '])
          = (value.toList.headD ' ' :: List.replicate (min (value.length - 2) 8) '*')
              ++ [value.toList.getLastD ' '] := by
        simp
      rw [hcat, List.getLast?_concat]
      cases hv : value.toList with
      | nil => exact absurd hv hne
      | cons c cs =>
        cases ho : (c :: cs : List Char).getLast? with
        | none => simp at ho
        | some y => simp [List.getLastD_eq_getLast?, ho]
    · rw [hlist]
      simp [List.dropLast_concat]

/-- C4 witness: the mask theorem applied at concrete inputs — a replacement
is used verbatim, a short value masks to `"****"`, a longer value keeps its
masked length at most 10. -/
theorem C4_witness :
    applyMask "abc" (some "xyz") = "xyz"
    ∧ applyMask "abc" none = "****"
    ∧ (applyMask "secret_value" none).length ≤ 10 :=
  ⟨(C4_apply_mask_shape "abc" "xyz").1,
   (C4_apply_mask_shape "abc" "xyz").2.1 (by decide),
   ((C4_apply_mask_shape "secret_value" "xyz").2.2 (by decide)).2.1⟩

/-- C5: command normalization surfaces the advertised bypass variants —
the subshell payload, the path-stripped command, the runner-stripped
command, and the fully unwrapped nested combination. -/
theorem C5_bypass_coverage :
    ("rm -rf /" ∈ normalizeCommand "bash -c \"rm -rf /\"" DEFAULT_OPTIONS)
    ∧ ("git push" ∈ normalizeCommand "/usr/bin/git push" DEFAULT_OPTIONS)
    ∧ ("wrangler deploy" ∈ normalizeCommand "npx wrangler deploy" DEFAULT_OPTIONS)
    ∧ ("wrangler deploy" ∈
        normalizeCommand "bash -c \"/usr/bin/npx wrangler deploy\"" DEFAULT_OPTIONS) := by
  decide

/-- C6: with the wrangler definition's default mode `passive`, omitting the
mode yields an allow rule for the invocation pattern carrying the context
text as its reason; requesting `strict` yields deny rules instead; an
explicitly configured mode always overrides the definition's default; and
an override message appears verbatim as the reason of the strict rules. -/
theorem C6_modal_resolution (msg : String) (mc : ModalRuleConfig) (m : RuleMode)
    (dm : Option RuleMode) :
    (resolveModalRule wranglerDefaultMode wranglerCreateRules none
      = ⟨none, none, some [⟨.regex WRANGLER_CMD_PATTERN, .allow, none,
          some WRANGLER_DEFAULT_CONTEXT, none⟩]⟩)
    ∧ (resolveModalRule wranglerDefaultMode wranglerCreateRules (some ⟨some .strict, none, none⟩)
      = ⟨some [⟨.regex WRANGLER_TOML_PATTERN, .deny, none, some WRANGLER_STRICT_MESSAGE, none⟩],
          none,
          some [⟨.regex WRANGLER_CMD_PATTERN, .deny, none, some WRANGLER_STRICT_MESSAGE, none⟩]⟩)
    ∧ (mc.mode = some m → resolveMode (some mc) dm = m)
    ∧ (resolveModalRule wranglerDefaultMode wranglerCreateRules
        (some ⟨some .strict, some msg, none⟩)
      = ⟨some [⟨.regex WRANGLER_TOML_PATTERN, .deny, none, some msg, none⟩], none,
          some [⟨.regex WRANGLER_CMD_PATTERN, .deny, none, some msg, none⟩]⟩) := by
  refine ⟨rfl, rfl, ?_, rfl⟩
  intro h
  simp [resolveMode, h]

/-- C6 witness: an explicitly configured strict mode overrides the wrangler
definition's passive default. -/
theorem C6_witness :
    resolveMode (some ⟨some .strict, none, none⟩) wranglerDefaultMode = .strict :=
  (C6_modal_resolution "m" ⟨some .strict, none, none⟩ .strict wranglerDefaultMode).2.2.1 rfl

/-- C7 counterexample: the scenario `fileRules = [{match: "node_modules",
action: "deny"}]`, `checkFile("packages/app/node_modules/x")` is blocked,
but its policy reference is `"rules[0]"`, not `"fileRules[0]"` — the rule
type name for non-CLI rules is the literal `"rules"`. -/
theorem C7_counterexample :
    checkFile none [FILE_NODE_MODULES_RULE] "packages/app/node_modules/x"
      = .blockedFile "file_hidden_by_policy"
          ⟨"packages/app/node_modules/x", "rules[0]", .deny, none⟩
    ∧ "rules[0]" ≠ "fileRules[0]" := by
  decide

/-- C7 amended: the policy reference of an evaluation result is
`<typeName>[<index>]` where the type name is `"cliRules"` exactly when the
matched rule carries a `safeAlternatives` field and the literal `"rules"`
otherwise; in the node_modules scenario the blocked result's policy is
`"rules[0]"`. -/
theorem C7_policy_ref_amended (target : String) (rules : List Rule) :
    (∀ (rule : Rule) (i : Nat), findMatchingRule target rules = some (rule, i) →
      evaluateRules target rules = some ⟨rule.action, rule,
        (if rule.safeAlternatives.isSome then "cliRules" else "rules")
          ++ "[" ++ toString i ++ "]"⟩)
    ∧ (checkFile none [FILE_NODE_MODULES_RULE] "packages/app/node_modules/x").isOk = false
    ∧ (checkFile none [FILE_NODE_MODULES_RULE] "packages/app/node_modules/x").blockedPolicy
        = some "rules[0]" := by
  refine ⟨?_, by decide, by decide⟩
  intro rule i h
  simp [evaluateRules, h, getRuleTypeName]

/-- C7 witness: the policy-reference format theorem applied to the
node_modules scenario. -/
theorem C7_witness :
    evaluateRules "packages/app/node_modules/x" [FILE_NODE_MODULES_RULE]
      = some ⟨FILE_NODE_MODULES_RULE.action, FILE_NODE_MODULES_RULE,
          (if FILE_NODE_MODULES_RULE.safeAlternatives.isSome then "cliRules" else "rules")
            ++ "[" ++ toString 0 ++ "]"⟩ :=
  (C7_policy_ref_amended "packages/app/node_modules/x" [FILE_NODE_MODULES_RULE]).1
    FILE_NODE_MODULES_RULE 0 (by decide)

/-- C8 counterexample: with rule `{match: "x", action: "rewrite",
replacement: "y"}`, `checkFile("x")` succeeds (it returns the replacement)
while `isVisible("x")` is false — visibility is not equivalent to the
single-target check succeeding. -/
theorem C8_counterexample :
    (checkFile none [REWRITE_WITH_REPLACEMENT_RULE] "x").isOk = true
    ∧ isVisible [REWRITE_WITH_REPLACEMENT_RULE] "x" = false := by
  decide

/-- C8 amended: `filterPaths` keeps exactly the paths satisfying
`isVisible` (no matching rule, or first match is an allow), and a visible
path always passes `checkFile` (without injectors); the converse fails for
rewrite rules with a replacement. -/
theorem C8_filter_visible_amended (rules : List Rule) (paths : List String) (p : String) :
    filterPaths rules paths = paths.filter (fun q => isVisible rules q)
    ∧ (isVisible rules p = true → (checkFile none rules p).isOk = true) := by
  constructor
  · rfl
  · intro h
    unfold isVisible at h
    cases heval : evaluateRules p rules with
    | none => simp [checkFile, heval, FileResult.isOk]
    | some result =>
      rw [heval] at h
      simp only [beq_iff_eq] at h
      simp [checkFile, heval, h, FileResult.isOk]

/-- C8 witness: the visibility implication at a concrete allow rule. -/
theorem C8_witness : (checkFile none [ALLOW_A_RULE] "a").isOk = true :=
  (C8_filter_visible_amended [ALLOW_A_RULE] ["a"] "a").2 (by decide)

/-- C9 counterexample: `isWrapped` does not consult the package-runner
pattern — `"npx wrangler deploy"` matches it, yet `isWrapped` returns
false. -/
theorem C9_counterexample :
    isWrappedCommand "npx wrangler deploy" = false
    ∧ jsTest PACKAGE_RUNNER_PATTERN (jsTrim "npx wrangler deploy") = true := by
  decide

/-- C9 amended: `isWrapped` is true exactly when one of the two
shell-wrapper patterns, one of the two eval patterns, or the absolute-path
pattern matches the trimmed raw command; the package-runner pattern (the
claim's fourth) is never consulted. -/
theorem C9_is_wrapped_amended (command : String) :
    isWrappedCommand command =
      (jsTest SHELL_WRAPPER_PATTERN_QUOTED (jsTrim command)
       || jsTest SHELL_WRAPPER_PATTERN_UNQUOTED (jsTrim command)
       || jsTest EVAL_PATTERN_QUOTED (jsTrim command)
       || jsTest EVAL_PATTERN_UNQUOTED (jsTrim command)
       || jsTest ABSOLUTE_PATH_PATTERN (jsTrim command)) := by
  cases h1 : jsTest SHELL_WRAPPER_PATTERN_QUOTED (jsTrim command) <;>
    cases h2 : jsTest SHELL_WRAPPER_PATTERN_UNQUOTED (jsTrim command) <;>
      cases h3 : jsTest EVAL_PATTERN_QUOTED (jsTrim command) <;>
        cases h4 : jsTest EVAL_PATTERN_UNQUOTED (jsTrim command) <;>
          cases h5 : jsTest ABSOLUTE_PATH_PATTERN (jsTrim command) <;>
            simp [isWrappedCommand, anyPatternTest, SHELL_WRAPPER_PATTERNS, EVAL_PATTERNS,
              h1, h2, h3, h4, h5]

/-- C10: when a mask rule is the first match for an env key whose
underlying variable is unset, `getEnv` succeeds with an undefined value and
no placeholder; the mask transform is applied only when a real string value
exists. -/
theorem C10_mask_unset_env (env : String → Option String) (rules : List Rule)
    (key : String) (result : EvalResult)
    (h : evaluateRules key rules = some result) (ha : result.action = .mask) :
    (env key = none → getEnv env none rules key = .okVal none none)
    ∧ (∀ v : String, env key = some v →
        getEnv env none rules key = .okVal (some (applyMask v result.rule.replacement)) none) := by
  constructor
  · intro he
    simp [getEnv, h, ha, he]
  · intro v hv
    simp [getEnv, h, ha, hv]

/-- C10 witness: a mask rule on key `K` with an unset variable yields a
success carrying an undefined value. -/
theorem C10_witness :
    getEnv (fun _ => none) none [ENV_MASK_RULE] "K" = .okVal none none :=
  (C10_mask_unset_env (fun _ => none) [ENV_MASK_RULE] "K"
    ⟨.mask, ENV_MASK_RULE, "rules[0]"⟩ (by decide) rfl).1 rfl

end Veil
